import Mathlib

/-! Verification model of the document-ingestion and question-resolution
backend (FastAPI + Celery project).

The Python tokenizer (tiktoken) is modeled by representing a page's text as
its token sequence, where each token is the string piece it decodes to;
`encoding.encode` is then the identity on that representation and
`encoding.decode` is string concatenation (faithful to byte-level BPE, whose
decode concatenates the per-token byte strings). -/

abbrev Token := String

/-- `encoding.decode`: concatenation of the decoded token pieces. -/
def decode (ts : List Token) : String := String.join ts

/-- Python `str.strip()`: remove whitespace from both ends. -/
def pyStrip (s : String) : String :=
  ⟨(((s.data.dropWhile Char.isWhitespace).reverse).dropWhile Char.isWhitespace).reverse⟩

/-- One entry of `pages_data` as produced by
`PDFProcessor.extract_text_with_pages` (services/pdf_processor.py):
keys `text`, `page_number`, `page_count`.  The extractor only appends pages
whose extracted text is non-empty. -/
structure PageData where
  text : List Token
  page_number : Nat
  page_count : Nat
deriving Repr, DecidableEq

/-- `TextChunker` configuration (services/text_chunker.py). -/
structure TextChunker where
  chunk_size : Nat
  chunk_overlap : Nat
deriving Repr, DecidableEq

/-- `all_tokens`: the pages' token streams concatenated in page order
(both cross-page chunkers build this before looping). -/
def allTokens (pages : List PageData) : List Token :=
  (pages.map PageData.text).flatten

/-- `page_boundaries`, paired with each page's `page_number`: for each page,
the offset in the concatenated token stream at which its tokens begin
(`page_boundaries.append(len(all_tokens))` before extending). -/
def boundaryPages : Nat → List PageData → List (Nat × Nat)
  | _, [] => []
  | acc, p :: ps => (acc, p.page_number) :: boundaryPages (acc + p.text.length) ps

/-- `page_boundaries[i + 1] if i + 1 < len(page_boundaries) else len(all_tokens)`. -/
def nextBoundary (N : Nat) : List (Nat × Nat) → Nat
  | [] => N
  | (b2, _) :: _ => b2

/-- The inner loop `for i, boundary in enumerate(page_boundaries)` computing
`pages_in_chunk`: page `i` is included iff
`start_idx < next_boundary and end_idx > boundary`. -/
def pagesInChunk (N start stop : Nat) : List (Nat × Nat) → List Nat
  | [] => []
  | (b, pn) :: rest =>
    if start < nextBoundary N rest ∧ b < stop then
      pn :: pagesInChunk N start stop rest
    else
      pagesInChunk N start stop rest

/-- One iteration of the `while start_idx < len(all_tokens)` loop of the
cross-page chunkers: the window offsets `[start_idx, end_idx)`, the token
slice `all_tokens[start_idx:end_idx]` and the computed `pages_in_chunk`. -/
structure Window where
  start : Nat
  stop : Nat
  tokens : List Token
  pages : List Nat
deriving Repr, DecidableEq

/-- The iteration trace of the cross-page chunking loop
(`chunk_documents_with_cross_page_overlap_streaming`, lines 265-306):
`fuel` is the remaining iteration budget (`max_iterations = 2 * len(all_tokens)`,
with the loop breaking once the budget is exhausted), `start` is `start_idx`.
Each executed iteration contributes one `Window`; the loop ends after the
window whose `end_idx` reaches the end of the stream, otherwise continues at
`start_idx = end_idx - chunk_overlap`. -/
def crossWindows (cs co : Nat) (toks : List Token) (bps : List (Nat × Nat)) :
    Nat → Nat → List Window
  | 0, _ => []
  | fuel + 1, start =>
    if start < toks.length then
      let stop := min (start + cs) toks.length
      let w : Window :=
        ⟨start, stop, (toks.drop start).take (stop - start),
          pagesInChunk toks.length start stop bps⟩
      if toks.length ≤ stop then [w]
      else w :: crossWindows cs co toks bps fuel (stop - co)
    else []

/-- A chunk dict as yielded by the cross-page chunkers: keys `text`,
`chunk_index`, `page_numbers`, `token_count`, `spans_multiple_pages`. -/
structure Chunk where
  text : String
  chunk_index : Nat
  page_numbers : List Nat
  token_count : Nat
  spans_multiple_pages : Bool
deriving Repr, DecidableEq

/-- The emission filter of the loop body: a window is yielded as a chunk only
when `chunk_text.strip()` is non-empty, and `chunk_index` is incremented only
on emission. -/
def emitChunks : Nat → List Window → List Chunk
  | _, [] => []
  | idx, w :: ws =>
    if pyStrip (decode w.tokens) ≠ "" then
      ⟨decode w.tokens, idx, w.pages, w.tokens.length, decide (1 < w.pages.length)⟩
        :: emitChunks (idx + 1) ws
    else emitChunks idx ws

/-- The full iteration trace of the streaming cross-page chunker on the given
pages (entered with `start_idx = 0` and `max_iterations = 2 * len(all_tokens)`). -/
def crossWindowTrace (cs co : Nat) (pages : List PageData) : List Window :=
  crossWindows cs co (allTokens pages) (boundaryPages 0 pages)
    (2 * (allTokens pages).length) 0

/-- `TextChunker.chunk_documents_with_cross_page_overlap_streaming`
(services/text_chunker.py, lines 237-306): the sequence of chunk dicts the
generator yields. -/
def TextChunker.chunk_documents_with_cross_page_overlap_streaming
    (tc : TextChunker) (pages : List PageData) : List Chunk :=
  emitChunks 0 (crossWindowTrace tc.chunk_size tc.chunk_overlap pages)

/-- The eager loop of `chunk_documents_with_cross_page_overlap`
(services/text_chunker.py, lines 165-235): identical control flow, but
appending each emitted chunk to the accumulated `chunks` list instead of
yielding it. -/
def crossLoopEager (cs co : Nat) (toks : List Token) (bps : List (Nat × Nat)) :
    Nat → Nat → Nat → List Chunk → List Chunk
  | 0, _, _, chunks => chunks
  | fuel + 1, start, idx, chunks =>
    if start < toks.length then
      let stop := min (start + cs) toks.length
      let wtokens := (toks.drop start).take (stop - start)
      let pages := pagesInChunk toks.length start stop bps
      let chunks' :=
        if pyStrip (decode wtokens) ≠ "" then
          chunks ++ [⟨decode wtokens, idx, pages, wtokens.length, decide (1 < pages.length)⟩]
        else chunks
      let idx' := if pyStrip (decode wtokens) ≠ "" then idx + 1 else idx
      if toks.length ≤ stop then chunks'
      else crossLoopEager cs co toks bps fuel (stop - co) idx' chunks'
    else chunks

/-- `TextChunker.chunk_documents_with_cross_page_overlap`
(services/text_chunker.py, lines 165-235). -/
def TextChunker.chunk_documents_with_cross_page_overlap
    (tc : TextChunker) (pages : List PageData) : List Chunk :=
  crossLoopEager tc.chunk_size tc.chunk_overlap (allTokens pages)
    (boundaryPages 0 pages) (2 * (allTokens pages).length) 0 0 []

def processPdfFinalStatus (cs co : Nat) (pages : List PageData) : Int × Nat × Nat :=
  if pages.isEmpty then (-1, 0, 0)
  else
    ((2 : Int),
      (TextChunker.chunk_documents_with_cross_page_overlap_streaming ⟨cs, co⟩ pages).length,
      (TextChunker.chunk_documents_with_cross_page_overlap_streaming ⟨cs, co⟩ pages).length)

/-- C2 counterexample: with `chunk_size = 2` and `chunk_overlap = 2` on a
3-token page the window never advances (every iteration has `start_idx = 0`),
the loop runs the full safety budget of `2 * total_tokens = 6` iterations and
then breaks out silently, and the document's ingestion nevertheless finishes
with status 2 ("completed"), not with any internal-error / failure status. -/
def pageIntervals : Nat → List PageData → List (Nat × Nat × Nat)
  | _, [] => []
  | acc, p :: ps =>
    (acc, acc + p.text.length, p.page_number) :: pageIntervals (acc + p.text.length) ps

def pyLower (s : String) : String := ⟨s.data.map Char.toLower⟩

/-- A graph node row (`nodes` table: id, text; `created_at` is modeled by
list order where relevant). -/
structure GNode where
  id : Nat
  text : String
deriving Repr, DecidableEq

/-- An FAQ row (id, question, answer, category). -/
structure FaqRec where
  id : Nat
  question : String
  answer : String
  category : String
deriving Repr, DecidableEq

/-- One vector-search hit as returned by `MilvusService.search_embeddings`. -/
structure ChunkHit where
  text : String
  document_name : String
  page_number : Nat
  score : Nat
deriving Repr, DecidableEq

/-- The JSON payload cached for an FAQ answer
(answer, source, faq_id, category, optional match_type). -/
structure CachePayload where
  answer : String
  source : String
  faq_id : Nat
  category : String
  matchType : Option String := none
deriving Repr, DecidableEq

/-- Python dict assignment `d[k] = v`: replace the value in place if the key
is present, otherwise append the binding. -/
def dictInsert {α : Type} (k : String) (v : α) : List (String × α) → List (String × α)
  | [] => [(k, v)]
  | (k', v') :: rest =>
    if k' = k then (k, v) :: rest else (k', v') :: dictInsert k v rest

/-- `RedisCache._get_cache_key` (services/redis_cache.py, lines 50-54):
`normalized = question.strip().lower()`, key is `"faq:" + normalized`. -/
def get_cache_key (question : String) : String := "faq:" ++ pyLower (pyStrip question)

/-- The Redis FAQ-cache keyspace (`faq:*` keys only).  TTL expiry is real
time and is not modeled; what matters to the claims is which key each
operation touches. -/
structure RedisCache where
  store : List (String × CachePayload)
deriving Repr, DecidableEq

/-- `RedisCache.get` (services/redis_cache.py, lines 56-83). -/
def RedisCache.get (c : RedisCache) (question : String) : Option CachePayload :=
  c.store.lookup (get_cache_key question)

/-- `RedisCache.set` (services/redis_cache.py, lines 85-114); `ttl_minutes`
defaults to 20 at the call sites. -/
def RedisCache.set (c : RedisCache) (question : String) (answer_data : CachePayload)
    (ttl_minutes : Nat) : RedisCache :=
  ⟨dictInsert (get_cache_key question) answer_data c.store⟩

/-- `RedisCache.delete` (services/redis_cache.py, lines 116-137). -/
def RedisCache.delete (c : RedisCache) (question : String) : RedisCache :=
  ⟨c.store.filter (fun p => p.1 != get_cache_key question)⟩

structure ResolverEnv where
  getNodeByText : String → Option GNode
  searchNodesByText : String → List GNode
  getTargetNodes : Nat → List GNode
  getFurtherOptions : Nat → List GNode
  searchFaqExact : String → Option FaqRec
  searchFaqPartialQ : String → List FaqRec
  searchEmbeddings : String → List ChunkHit
  getUserChatSessions : String → List (Nat × String)
  hfToken : Option String
  llmAnswer : String → List ChunkHit → String
  freshMessageId : String

/-- The response dict assembled by the resolvers; absent dict keys are
`none` / `[]` / `false`. -/
structure Resp where
  success : Bool := true
  question : String := ""
  source : String := ""
  answer : Option String := none
  answers : List String := []
  target_nodes : List (Nat × String × Bool) := []
  status : Option String := none
  message : Option String := none
  task_id : Option String := none
  from_cache : Bool := false
  faq_id : Option Nat := none
  category : Option String := none
  match_type : Option String := none
  data_source : Option String := none
  count : Option Nat := none
  chunks_found : Option Nat := none
  chunks_used : Option Nat := none
deriving Repr, DecidableEq

/-- The args list handed to `generate_llm_answer_task.apply_async`
(routes/websocket_chat.py): question, context chunks, resolved session id,
user id, message id, client id. -/
structure TaskSubmission where
  question : String
  context_chunks : List ChunkHit
  session_id : String
  user_id : String
  message_id : String
  client_id : Option String
deriving Repr, DecidableEq

/-- Result of `process_chat_message` plus its dispatch side effects:
tasks submitted to the queue, `pending_tasks` registrations, cache writes.
(Chat-history persistence is an external fire-and-forget side effect not
referenced by any claim and is elided.) -/
structure WsOutcome where
  resp : Resp
  dispatched : List TaskSubmission
  pendingRegs : List (String × String)
  cacheWrites : List (String × CachePayload)

/-- Result of the REST `chat` route plus its side effects: cache writes and
synchronous LLM completion calls. -/
structure RestOutcome where
  resp : Resp
  cacheWrites : List (String × CachePayload)
  llmCalls : List (String × List ChunkHit)

/-- The numeric-session-id compatibility shim shared by both resolvers:
a purely numeric `session_id` is treated as a row id and translated to the
canonical `session_id` via `get_user_chat_sessions`. -/
def resolveSessionId (env : ResolverEnv) (user_id session_id : String) : String :=
  if session_id ≠ "" ∧ user_id ≠ "" ∧ session_id.data.all Char.isDigit then
    match (env.getUserChatSessions user_id).find? (fun s => toString s.1 == session_id) with
    | some s => s.2
    | none => session_id
  else session_id

/-- The `clickable_answers` / `target_nodes` decoration: each target also
reports `is_source` = whether it has further outbound options. -/
def kgTargets (env : ResolverEnv) (targets : List GNode) : List (Nat × String × Bool) :=
  targets.map (fun t => (t.id, t.text, !(env.getFurtherOptions t.id).isEmpty))

/-- Python-set based de-duplication preserving first-seen order
(the `seen` / `unique_targets` loop of step 2). -/
def dedupByIdAux : List Nat → List GNode → List GNode
  | _, [] => []
  | seen, n :: rest =>
    if n.id ∈ seen then dedupByIdAux seen rest
    else n :: dedupByIdAux (n.id :: seen) rest

/-- Step 4 of `process_chat_message` (routes/websocket_chat.py, lines
289-393): RAG fallback.  Missing HUGGINGFACE_TOKEN returns a config-error
response; otherwise the vector search runs and a worker task is submitted
both in the non-empty and in the empty (`[]` context) result case, returning
a "processing" response carrying `task_id = message_id`. -/
def wsStep4 (env : ResolverEnv) (question user_id actual_session_id : String)
    (client_id : Option String) : WsOutcome :=
  match env.hfToken with
  | none =>
    { resp :=
        { success := false, question := question, source := "rag",
          message := some "LLM service not properly configured. Please set HUGGINGFACE_TOKEN." },
      dispatched := [], pendingRegs := [], cacheWrites := [] }
  | some _ =>
    let search_results := env.searchEmbeddings question
    let message_id := env.freshMessageId
    let regs : List (String × String) :=
      match client_id with
      | some c => [(message_id, c)]
      | none => []
    if search_results ≠ [] then
      { resp :=
          { success := true, question := question, task_id := some message_id,
            source := "rag", status := some "processing",
            message := some "Your question is being processed by the LLM..." },
        dispatched :=
          [⟨question, search_results, actual_session_id, user_id, message_id, client_id⟩],
        pendingRegs := regs, cacheWrites := [] }
    else
      { resp :=
          { success := true, question := question, task_id := some message_id,
            source := "rag", status := some "processing",
            message := some "Your question is being processed..." },
        dispatched := [⟨question, [], actual_session_id, user_id, message_id, client_id⟩],
        pendingRegs := regs, cacheWrites := [] }

/-- Step 3 of `process_chat_message` (routes/websocket_chat.py, lines
217-287): Redis cache, then FAQ partial search (the websocket resolver has
no separate FAQ exact tier); an FAQ hit caches its payload before returning. -/
def wsStep3 (env : ResolverEnv) (cache : RedisCache)
    (question user_id actual_session_id : String) (client_id : Option String) : WsOutcome :=
  match RedisCache.get cache question with
  | some cached_answer =>
    { resp :=
        { success := true, question := question,
          answer := some cached_answer.answer, source := cached_answer.source,
          faq_id := some cached_answer.faq_id, category := some cached_answer.category,
          from_cache := true },
      dispatched := [], pendingRegs := [], cacheWrites := [] }
  | none =>
    match env.searchFaqPartialQ question with
    | best_faq :: _ =>
      { resp :=
          { success := true, question := question, answer := some best_faq.answer,
            source := "faq", faq_id := some best_faq.id, category := some best_faq.category },
        dispatched := [], pendingRegs := [],
        cacheWrites :=
          [(get_cache_key question,
            { answer := best_faq.answer, source := "faq", faq_id := best_faq.id,
              category := best_faq.category })] }
    | [] => wsStep4 env question user_id actual_session_id client_id

/-- Step 2 of `process_chat_message` (routes/websocket_chat.py, lines
155-215): fuzzy node search, union of targets de-duplicated by node id. -/
def wsStep2 (env : ResolverEnv) (cache : RedisCache)
    (question user_id actual_session_id : String) (client_id : Option String) : WsOutcome :=
  let matching_nodes := env.searchNodesByText question
  if matching_nodes ≠ [] then
    let all_target_nodes := (matching_nodes.map (fun s => env.getTargetNodes s.id)).flatten
    let unique_targets := dedupByIdAux [] all_target_nodes
    if unique_targets ≠ [] then
      { resp :=
          { success := true, question := question,
            answers := unique_targets.map GNode.text,
            target_nodes := kgTargets env unique_targets,
            source := "knowledge_graph", data_source := some "NODE",
            count := some unique_targets.length },
        dispatched := [], pendingRegs := [], cacheWrites := [] }
    else wsStep3 env cache question user_id actual_session_id client_id
  else wsStep3 env cache question user_id actual_session_id client_id

/-- `process_chat_message` (routes/websocket_chat.py, lines 85-401): the
tier chain exact graph → fuzzy graph → cache → FAQ → RAG dispatch. -/
def wsProcessChatMessage (env : ResolverEnv) (cache : RedisCache)
    (question user_id session_id : String) (client_id : Option String) : WsOutcome :=
  let actual_session_id := resolveSessionId env user_id session_id
  match env.getNodeByText question with
  | some source_node =>
    let target_nodes := env.getTargetNodes source_node.id
    if target_nodes ≠ [] then
      { resp :=
          { success := true, question := source_node.text,
            answers := target_nodes.map GNode.text,
            target_nodes := kgTargets env target_nodes,
            source := "knowledge_graph", data_source := some "NODE",
            count := some target_nodes.length },
        dispatched := [], pendingRegs := [], cacheWrites := [] }
    else wsStep2 env cache question user_id actual_session_id client_id
  | none => wsStep2 env cache question user_id actual_session_id client_id

/-- Step 4 of the REST `chat` route (routes/chat.py, lines 320-440): the
synchronous RAG tail.  Zero similar chunks returns the not-found response
without any LLM call; otherwise the LLM is called synchronously. -/
def restStep4 (env : ResolverEnv) (question user_id actual_session_id : String) :
    RestOutcome :=
  let similar_chunks := env.searchEmbeddings question
  if similar_chunks = [] then
    { resp :=
        { success := false, question := question, answer := none, source := "rag",
          message := some "No relevant information found in documents. Please try another question or upload documents.",
          chunks_found := some 0 },
      cacheWrites := [], llmCalls := [] }
  else
    match env.hfToken with
    | none =>
      { resp :=
          { success := false, question := question, answer := none, source := "rag",
            message := some "LLM service not properly configured. Please set HUGGINGFACE_TOKEN.",
            chunks_found := some similar_chunks.length },
        cacheWrites := [], llmCalls := [] }
    | some _ =>
      { resp :=
          { success := true, question := question,
            answer := some (env.llmAnswer question similar_chunks),
            source := "rag", data_source := some "RAG",
            chunks_used := some similar_chunks.length },
        cacheWrites := [], llmCalls := [(question, similar_chunks)] }

/-- Step 3 of the REST `chat` route (routes/chat.py, lines 183-318): Redis
cache, FAQ exact match, then FAQ partial match; FAQ hits populate the cache
before returning. -/
def restStep3 (env : ResolverEnv) (cache : RedisCache)
    (question user_id actual_session_id : String) : RestOutcome :=
  match RedisCache.get cache question with
  | some cached_answer =>
    { resp :=
        { success := true, question := question, answer := some cached_answer.answer,
          source := cached_answer.source, faq_id := some cached_answer.faq_id,
          category := some cached_answer.category, from_cache := true,
          data_source := some "REDIS" },
      cacheWrites := [], llmCalls := [] }
  | none =>
    match env.searchFaqExact question with
    | some faq_exact =>
      { resp :=
          { success := true, question := question, answer := some faq_exact.answer,
            source := "faq", faq_id := some faq_exact.id,
            category := some faq_exact.category,
            from_cache := false, data_source := some "FAQ" },
        cacheWrites :=
          [(get_cache_key question,
            { answer := faq_exact.answer, source := "faq", faq_id := faq_exact.id,
              category := faq_exact.category })],
        llmCalls := [] }
    | none =>
      match env.searchFaqPartialQ question with
      | best_faq :: _ =>
        { resp :=
            { success := true, question := question, answer := some best_faq.answer,
              source := "faq", faq_id := some best_faq.id,
              category := some best_faq.category,
              match_type := some "partial", from_cache := false,
              data_source := some "FAQ" },
          cacheWrites :=
            [(get_cache_key question,
              { answer := best_faq.answer, source := "faq", faq_id := best_faq.id,
                category := best_faq.category, matchType := some "partial" })],
          llmCalls := [] }
      | [] => restStep4 env question user_id actual_session_id

/-- Step 2 of the REST `chat` route (routes/chat.py, lines 114-181). -/
def restStep2 (env : ResolverEnv) (cache : RedisCache)
    (question user_id actual_session_id : String) : RestOutcome :=
  let matching_nodes := env.searchNodesByText question
  if matching_nodes ≠ [] then
    let all_target_nodes := (matching_nodes.map (fun s => env.getTargetNodes s.id)).flatten
    let unique_targets := dedupByIdAux [] all_target_nodes
    if unique_targets ≠ [] then
      { resp :=
          { success := true, question := question,
            answers := unique_targets.map GNode.text,
            target_nodes := kgTargets env unique_targets,
            source := "knowledge_graph", data_source := some "NODE",
            count := some unique_targets.length },
        cacheWrites := [], llmCalls := [] }
    else restStep3 env cache question user_id actual_session_id
  else restStep3 env cache question user_id actual_session_id

/-- The REST `chat` route (routes/chat.py, lines 18-447): exact graph →
fuzzy graph → cache → FAQ exact → FAQ partial → synchronous RAG. -/
def restChat (env : ResolverEnv) (cache : RedisCache)
    (question user_id session_id : String) : RestOutcome :=
  let actual_session_id := resolveSessionId env user_id session_id
  match env.getNodeByText question with
  | some source_node =>
    let target_nodes := env.getTargetNodes source_node.id
    if target_nodes ≠ [] then
      { resp :=
          { success := true, question := source_node.text,
            answers := target_nodes.map GNode.text,
            target_nodes := kgTargets env target_nodes,
            source := "knowledge_graph", data_source := some "NODE",
            count := some target_nodes.length },
        cacheWrites := [], llmCalls := [] }
    else restStep2 env cache question user_id actual_session_id
  | none => restStep2 env cache question user_id actual_session_id

/-- C5: whenever the exact graph tier finds a node with outbound edges, both
resolvers answer from the knowledge graph — even when an FAQ entry also
matches the question — because the tiers run in strict priority order and
resolution stops at the first usable result. -/
def envC5 : ResolverEnv :=
  { getNodeByText := fun t => if t = "Q" then some ⟨1, "Q"⟩ else none,
    searchNodesByText := fun _ => [],
    getTargetNodes := fun i => if i = 1 then [⟨2, "A1"⟩, ⟨3, "A2"⟩] else [],
    getFurtherOptions := fun _ => [],
    searchFaqExact := fun _ => none,
    searchFaqPartialQ := fun _ => [⟨7, "Q", "faq answer", "general"⟩],
    searchEmbeddings := fun _ => [],
    getUserChatSessions := fun _ => [],
    hfToken := some "tok",
    llmAnswer := fun _ _ => "llm",
    freshMessageId := "m1" }

def envC7 : ResolverEnv :=
  { getNodeByText := fun _ => none,
    searchNodesByText := fun _ => [],
    getTargetNodes := fun _ => [],
    getFurtherOptions := fun _ => [],
    searchFaqExact := fun _ => none,
    searchFaqPartialQ := fun _ => [],
    searchEmbeddings := fun _ => [],
    getUserChatSessions := fun _ => [],
    hfToken := some "tok",
    llmAnswer := fun _ _ => "llm",
    freshMessageId := "m1" }

/-- C7 counterexample: in the websocket resolver, a RAG fallback whose
vector search returns zero chunks still dispatches a worker task (with an
empty context list) and returns a "processing" response — it does not
return a not-found result, and a task is handed to the dispatcher despite
the search having returned no context chunk. -/
def get_node_by_text (nodes : List GNode) (text : String) : Option GNode :=
  (nodes.filter (fun n => n.text == text)).head?

/-- C6 counterexample: the stored node "What is X" is not found by the
exact-match tier for the questions " what is x " and "what is x", although
both are equal to the node text up to letter case and surrounding
whitespace (shown by the trim+lowercase normalizations agreeing): the
lookup performs no case-insensitive or trimming normalization. -/
inductive PyVal where
  | str (s : String)
  | chunkList (l : List ChunkHit)
  | pyNone
deriving Repr, DecidableEq

/-- The positional args list built by the websocket resolver for
`generate_llm_answer_task.apply_async` (routes/websocket_chat.py, lines
325-336 and 359-370): question, search_results, actual_session_id, user_id,
message_id, client_id — six arguments. -/
def wsSubmittedArgs (t : TaskSubmission) : List PyVal :=
  [.str t.question, .chunkList t.context_chunks, .str t.session_id, .str t.user_id,
    .str t.message_id,
    match t.client_id with
    | some c => .str c
    | none => .pyNone]

/-- `generate_llm_answer_task` (tasks/llm_tasks.py, lines 13-70): the value
the task body returns.  Beyond `self` it accepts exactly five parameters —
question, chunks, session_id, user_id, message_id — and returns the dict
whose only keys are status, message_id, answer and timestamp (`llm` models
the completion service, `now` the timestamp). -/
def generate_llm_answer_task (question : String) (chunks : List ChunkHit)
    (session_id user_id message_id : String)
    (llm : String → List ChunkHit → String) (now : String) : List (String × String) :=
  [("status", "success"), ("message_id", message_id), ("answer", llm question chunks),
    ("timestamp", now)]

/-- Python positional-call semantics for the worker invocation:
`generate_llm_answer_task` declares exactly five parameters after `self`,
so an invocation whose args list does not have exactly five elements raises
`TypeError` before the task body runs. -/
def runGenerateLlmAnswerTask (llm : String → List ChunkHit → String) (now : String) :
    List PyVal → Except String (List (String × String))
  | [.str q, .chunkList chunks, .str sid, .str uid, .str mid] =>
    .ok (generate_llm_answer_task q chunks sid uid mid llm now)
  | _ => .error "TypeError: wrong number of positional arguments"

/-- The `{type, task_id, status, question, answer, source}` envelope that
`task_postrun` publishes (celery_config.py, lines 114-125); question and
answer come from `retval.get(...)` and may be absent. -/
structure RagEnvelope where
  type : String
  task_id : String
  status : String
  question : Option String
  answer : Option String
  source : String
deriving Repr, DecidableEq

/-- The `task_postrun` signal handler (celery_config.py, lines 94-166): for
a `generate_llm_answer_task` result it publishes the envelope on channel
`"rag_result:" + client_id` only when `retval.get('client_id')` is present;
otherwise nothing is published. -/
def taskPostrunPublish (task_id : String) (retval : List (String × String)) :
    Option (String × RagEnvelope) :=
  match retval.lookup "client_id" with
  | some client_id =>
    some ("rag_result:" ++ client_id,
      ⟨"result", task_id, "success", retval.lookup "question", retval.lookup "answer",
        "rag"⟩)
  | none => none

/-- C8 (code bug): the websocket resolver submits six positional arguments
(including client_id) to a worker task that declares only five, so the
worker invocation raises TypeError for every dispatched task; and even when
the task body is invoked with its declared five parameters, its return dict
carries no `client_id` (nor `question`) key, so `task_postrun` never
publishes any result envelope on `"rag_result:" + client_id` — no worker
result can ever reach a client this way. -/
structure ConnMgr where
  active_connections : List (String × Nat)
  pending_tasks : List (String × String)
deriving Repr, DecidableEq

/-- `ConnectionManager.connect`: store the accepted socket under client_id. -/
def ConnMgr.connect (m : ConnMgr) (client_id : String) (sock : Nat) : ConnMgr :=
  { m with active_connections := dictInsert client_id sock m.active_connections }

/-- `ConnectionManager.disconnect`: drop the connection entry and purge every
pending-task entry whose value is this client_id. -/
def ConnMgr.disconnect (m : ConnMgr) (client_id : String) : ConnMgr :=
  { active_connections := m.active_connections.filter (fun p => p.1 != client_id),
    pending_tasks := m.pending_tasks.filter (fun p => p.2 != client_id) }

/-- `ConnectionManager.send_message`: deliver to the stored socket only when
the client is still connected; returns the delivery (socket, payload). -/
def ConnMgr.send_message (m : ConnMgr) (client_id : String) (message : String) :
    Option (Nat × String) :=
  (m.active_connections.lookup client_id).map (fun sock => (sock, message))

/-- `ConnectionManager.register_pending_task`:
`pending_tasks[task_id] = client_id`. -/
def ConnMgr.register_pending_task (m : ConnMgr) (task_id client_id : String) : ConnMgr :=
  { m with pending_tasks := dictInsert task_id client_id m.pending_tasks }

/-- `ConnectionManager.send_to_task_client`: if the task is registered, send
to the registered client and delete the entry (`del` of the single key is
modeled as a key filter, equivalent under dict key-uniqueness); otherwise a
logged no-op.  Returns the new state and, when registered, the target
client_id with the delivery attempt. -/
def ConnMgr.send_to_task_client (m : ConnMgr) (task_id : String) (message : String) :
    ConnMgr × Option (String × Option (Nat × String)) :=
  match m.pending_tasks.lookup task_id with
  | some client_id =>
    ({ m with pending_tasks := m.pending_tasks.filter (fun p => p.1 != task_id) },
      some (client_id, m.send_message client_id message))
  | none => (m, none)

/-- C9: the pending-task registry maps each task_id to at most one client
(dict-key uniqueness is preserved by register, disconnect and delivery);
registering a task and then delivering its result before any disconnect
forwards the payload to exactly the originally registered client's socket
and removes the entry; a disconnect purges every pending entry of that
client; and a delivery for an unregistered task_id is a no-op. -/
lemma crossLoopEager_eq_emit (cs co : Nat) (toks : List Token) (bps : List (Nat × Nat)) :
    ∀ (fuel start idx : Nat) (acc : List Chunk),
      crossLoopEager cs co toks bps fuel start idx acc
        = acc ++ emitChunks idx (crossWindows cs co toks bps fuel start) := by
  intro fuel
  induction fuel with
  | zero => intro start idx acc; simp [crossLoopEager, crossWindows, emitChunks]
  | succ n ih =>
    intro start idx acc
    simp only [crossLoopEager, crossWindows]
    by_cases h : start < toks.length
    · rw [if_pos h, if_pos h]
      by_cases hstop : toks.length ≤ min (start + cs) toks.length
      · rw [if_pos hstop, if_pos hstop]
        by_cases hk :
            pyStrip (decode ((toks.drop start).take (min (start + cs) toks.length - start))) ≠ ""
        · rw [if_pos hk]
          simp [emitChunks, hk]
        · rw [if_neg hk]
          simp [emitChunks, hk]
      · rw [if_neg hstop, if_neg hstop]
        by_cases hk :
            pyStrip (decode ((toks.drop start).take (min (start + cs) toks.length - start))) ≠ ""
        · rw [if_pos hk, if_pos hk, ih]
          simp [emitChunks, hk]
        · rw [if_neg hk, if_neg hk, ih]
          simp [emitChunks, hk]
    · rw [if_neg h, if_neg h]
      simp [emitChunks]

/-- C4: the eager cross-page chunker and the streaming cross-page chunker
produce the same sequence of chunks (same text, same page_numbers, same
token_count, same order) on every `pages_data` input; since the streaming
generator's output is this fixed sequence, it does not depend on whether the
consumer drains it eagerly or one chunk at a time. -/
theorem chunker_eager_eq_streaming (tc : TextChunker) (pages : List PageData) :
    tc.chunk_documents_with_cross_page_overlap pages
      = tc.chunk_documents_with_cross_page_overlap_streaming pages := by
  unfold TextChunker.chunk_documents_with_cross_page_overlap
    TextChunker.chunk_documents_with_cross_page_overlap_streaming crossWindowTrace
  rw [crossLoopEager_eq_emit]
  simp

lemma mem_crossWindows (cs co : Nat) (toks : List Token) (bps : List (Nat × Nat)) :
    ∀ (fuel start : Nat) (w : Window), w ∈ crossWindows cs co toks bps fuel start →
      w.start < toks.length ∧ w.stop = min (w.start + cs) toks.length ∧
      w.tokens = (toks.drop w.start).take (w.stop - w.start) ∧
      w.pages = pagesInChunk toks.length w.start w.stop bps := by
  intro fuel
  induction fuel with
  | zero => intro start w hw; simp [crossWindows] at hw
  | succ n ih =>
    intro start w hw
    simp only [crossWindows] at hw
    by_cases h : start < toks.length
    · rw [if_pos h] at hw
      by_cases hstop : toks.length ≤ min (start + cs) toks.length
      · rw [if_pos hstop] at hw
        simp only [List.mem_singleton] at hw
        subst hw
        exact ⟨h, rfl, rfl, rfl⟩
      · rw [if_neg hstop] at hw
        rcases List.mem_cons.mp hw with h1 | h1
        · subst h1; exact ⟨h, rfl, rfl, rfl⟩
        · exact ih _ w h1
    · rw [if_neg h] at hw
      simp at hw

lemma crossWindows_length_le (cs co : Nat) (toks : List Token) (bps : List (Nat × Nat)) :
    ∀ (fuel start : Nat), (crossWindows cs co toks bps fuel start).length ≤ fuel := by
  intro fuel
  induction fuel with
  | zero => intro start; simp [crossWindows]
  | succ n ih =>
    intro start
    simp only [crossWindows]
    by_cases h : start < toks.length
    · rw [if_pos h]
      by_cases hstop : toks.length ≤ min (start + cs) toks.length
      · rw [if_pos hstop]; simp
      · rw [if_neg hstop]
        simpa using Nat.succ_le_succ (ih (min (start + cs) toks.length - co))
    · rw [if_neg h]; simp

/-- Models the outcome of `process_pdf_async` (src/backend/routes/pdf.py,
lines 44-243) from the point where extraction has produced `pages`: the
embedding and Milvus collaborators are modeled as succeeding (their failure
branches set status -1 and are not reached).  Returns the final
`(status, chunk_count, embedding_count)` written by
`update_pdf_processing_status`: status -1 ("Failed: No text could be
extracted from PDF") when no page has text, otherwise the coordinator drains
the streaming chunk generator to exhaustion, embeds and inserts every chunk
in batches, and writes status 2 ("Processing completed successfully") with
the cumulative counts. -/
theorem chunker_stall_completes_normally :
    (crossWindowTrace 2 2 [⟨["a", "b", "c"], 1, 1⟩]).length
        = 2 * (allTokens [⟨["a", "b", "c"], 1, 1⟩]).length ∧
    (∀ w ∈ crossWindowTrace 2 2 [⟨["a", "b", "c"], 1, 1⟩], w.start = 0) ∧
    processPdfFinalStatus 2 2 [⟨["a", "b", "c"], 1, 1⟩] = (2, 6, 6) := by decide

/-- C2 amended: on every input the cross-page chunking loop executes at most
`2 * total_tokens` iterations (the safety bound makes it terminate even when
the window fails to advance), but hitting the bound only breaks out of the
loop: the stream then ends as if it had completed normally, and the
document's ingestion finishes with status 2 ("completed"), not with an
internal-error status. -/
theorem chunker_safety_bound_then_normal_completion (cs co : Nat)
    (pages : List PageData) (h : pages ≠ []) :
    (crossWindowTrace cs co pages).length ≤ 2 * (allTokens pages).length ∧
    (processPdfFinalStatus cs co pages).1 = 2 := by
  refine ⟨crossWindows_length_le _ _ _ _ _ _, ?_⟩
  simp [processPdfFinalStatus, h]

theorem chunker_safety_bound_then_normal_completion_witness :
    ([(⟨["a", "b", "c"], 1, 1⟩ : PageData)] ≠ [] ∧
      (crossWindowTrace 2 2 [⟨["a", "b", "c"], 1, 1⟩]).length
          ≤ 2 * (allTokens [⟨["a", "b", "c"], 1, 1⟩]).length ∧
      (processPdfFinalStatus 2 2 [⟨["a", "b", "c"], 1, 1⟩]).1 = 2) :=
  ⟨by decide, chunker_safety_bound_then_normal_completion 2 2 _ (by decide)⟩

/-- C1 counterexample: with `chunk_size = 1 > chunk_overlap = 0` on the
3-token stream "a", " ", "b" (so N = 3 ≥ 1), the middle window `[1, 2)`
decodes to whitespace only and is dropped by the `chunk_text.strip()` filter,
so the emitted chunks are "a" and "b": token offset 1 lies in no emitted
window, i.e. the emitted windows do not cover the token range `[0, N)`, and
concatenating the emitted chunks' texts loses the middle token. -/
theorem emitted_windows_coverage_gap :
    (0 : Nat) < 1 ∧ 1 ≤ (allTokens [⟨["a", " ", "b"], 1, 1⟩]).length ∧
    (TextChunker.chunk_documents_with_cross_page_overlap_streaming ⟨1, 0⟩
        [⟨["a", " ", "b"], 1, 1⟩]).map Chunk.text = ["a", "b"] ∧
    decode (allTokens [⟨["a", " ", "b"], 1, 1⟩]) = "a b" ∧
    (∀ w ∈ crossWindowTrace 1 0 [⟨["a", " ", "b"], 1, 1⟩],
        pyStrip (decode w.tokens) ≠ "" → ¬(w.start ≤ 1 ∧ 1 < w.stop)) := by decide

lemma crossWindows_head (cs co : Nat) (toks : List Token) (bps : List (Nat × Nat))
    (fuel start : Nat) (hf : fuel ≠ 0) (h : start < toks.length) :
    (crossWindows cs co toks bps fuel start).head? =
      some ⟨start, min (start + cs) toks.length,
        (toks.drop start).take (min (start + cs) toks.length - start),
        pagesInChunk toks.length start (min (start + cs) toks.length) bps⟩ := by
  obtain ⟨n, rfl⟩ := Nat.exists_eq_succ_of_ne_zero hf
  simp only [crossWindows]
  rw [if_pos h]
  by_cases hstop : toks.length ≤ min (start + cs) toks.length
  · rw [if_pos hstop]; rfl
  · rw [if_neg hstop]; rfl

lemma crossWindows_split (cs co : Nat) (toks : List Token) (bps : List (Nat × Nat))
    (hco : co < cs) :
    ∀ (fuel start : Nat), start < toks.length → toks.length ≤ start + fuel →
      ∃ ws lst, crossWindows cs co toks bps fuel start = ws ++ [lst] ∧
        lst.stop = toks.length ∧ ∀ w ∈ ws, w.stop < toks.length := by
  intro fuel
  induction fuel with
  | zero => intro start h hf; omega
  | succ n ih =>
    intro start h hf
    simp only [crossWindows]
    rw [if_pos h]
    by_cases hstop : toks.length ≤ min (start + cs) toks.length
    · rw [if_pos hstop]
      refine ⟨[], ⟨start, min (start + cs) toks.length,
        (toks.drop start).take (min (start + cs) toks.length - start),
        pagesInChunk toks.length start (min (start + cs) toks.length) bps⟩, rfl, ?_, by simp⟩
      show min (start + cs) toks.length = toks.length
      omega
    · rw [if_neg hstop]
      have h1 : min (start + cs) toks.length - co < toks.length := by omega
      have h2 : toks.length ≤ (min (start + cs) toks.length - co) + n := by omega
      obtain ⟨ws, lst, heq, hlst, hws⟩ := ih (min (start + cs) toks.length - co) h1 h2
      refine ⟨_ :: ws, lst, by rw [heq]; rfl, hlst, ?_⟩
      intro w hw
      rcases List.mem_cons.mp hw with rfl | hw'
      · show min (start + cs) toks.length < toks.length
        omega
      · exact hws w hw'

lemma crossWindows_cover (cs co : Nat) (toks : List Token) (bps : List (Nat × Nat))
    (hco : co < cs) :
    ∀ (fuel start : Nat), start < toks.length → toks.length ≤ start + fuel →
      ∀ k, start ≤ k → k < toks.length →
        ∃ w ∈ crossWindows cs co toks bps fuel start, w.start ≤ k ∧ k < w.stop := by
  intro fuel
  induction fuel with
  | zero => intro start h hf; omega
  | succ n ih =>
    intro start h hf k hk1 hk2
    simp only [crossWindows]
    rw [if_pos h]
    by_cases hstop : toks.length ≤ min (start + cs) toks.length
    · rw [if_pos hstop]
      exact ⟨_, List.mem_singleton.mpr rfl, hk1,
        (by omega : k < min (start + cs) toks.length)⟩
    · rw [if_neg hstop]
      by_cases hkin : k < min (start + cs) toks.length
      · exact ⟨_, List.mem_cons_self _ _, hk1, hkin⟩
      · have h1 : min (start + cs) toks.length - co < toks.length := by omega
        have h2 : toks.length ≤ (min (start + cs) toks.length - co) + n := by omega
        have h3 : min (start + cs) toks.length - co ≤ k := by omega
        obtain ⟨w, hw, hws, hwk⟩ := ih _ h1 h2 k h3 hk2
        exact ⟨w, List.mem_cons_of_mem _ hw, hws, hwk⟩

lemma crossWindows_chain_start (cs co : Nat) (toks : List Token) (bps : List (Nat × Nat))
    (hco : co < cs) :
    ∀ (fuel start : Nat), toks.length ≤ start + fuel →
      List.Chain' (fun a b => b.start = a.stop - co)
        (crossWindows cs co toks bps fuel start) := by
  intro fuel
  induction fuel with
  | zero => intro start _; simp [crossWindows]
  | succ n ih =>
    intro start hf
    by_cases h : start < toks.length
    · simp only [crossWindows]
      rw [if_pos h]
      by_cases hstop : toks.length ≤ min (start + cs) toks.length
      · rw [if_pos hstop]; exact List.chain'_singleton _
      · rw [if_neg hstop]
        rw [List.chain'_cons']
        have h1 : min (start + cs) toks.length - co < toks.length := by omega
        have hn : n ≠ 0 := by omega
        constructor
        · intro y hy
          rw [crossWindows_head cs co toks bps n _ hn h1] at hy
          rw [Option.mem_some_iff] at hy
          subst hy
          rfl
        · exact ih _ (by omega)
    · simp only [crossWindows]
      rw [if_neg h]
      exact List.chain'_nil

lemma crossWindows_chain_overlap (cs co : Nat) (toks : List Token) (bps : List (Nat × Nat))
    (hco : co < cs) :
    ∀ (fuel start : Nat), toks.length ≤ start + fuel →
      List.Chain' (fun a b => b.tokens.take co = a.tokens.drop (a.tokens.length - co))
        (crossWindows cs co toks bps fuel start) := by
  intro fuel
  induction fuel with
  | zero => intro start _; simp [crossWindows]
  | succ n ih =>
    intro start hf
    by_cases h : start < toks.length
    · simp only [crossWindows]
      rw [if_pos h]
      by_cases hstop : toks.length ≤ min (start + cs) toks.length
      · rw [if_pos hstop]; exact List.chain'_singleton _
      · rw [if_neg hstop]
        rw [List.chain'_cons']
        have h1 : min (start + cs) toks.length - co < toks.length := by omega
        have hn : n ≠ 0 := by omega
        have hmin : min (start + cs) toks.length = start + cs := by omega
        constructor
        · intro y hy
          rw [crossWindows_head cs co toks bps n _ hn h1] at hy
          rw [Option.mem_some_iff] at hy
          subst hy
          show ((toks.drop (min (start + cs) toks.length - co)).take
              (min (min (start + cs) toks.length - co + cs) toks.length
                - (min (start + cs) toks.length - co))).take co
            = ((toks.drop start).take (min (start + cs) toks.length - start)).drop
              (((toks.drop start).take (min (start + cs) toks.length - start)).length - co)
          rw [hmin, List.length_take, List.length_drop, Nat.add_sub_cancel_left]
          have hc1 : cs ⊓ (toks.length - start) = cs := by omega
          rw [hc1, List.drop_take, List.drop_drop, List.take_take]
          have hc2 : cs - (cs - co) = co := by omega
          have hc3 : co ⊓ (min (start + cs - co + cs) toks.length - (start + cs - co)) = co := by
            omega
          rw [hc2, hc3]
          have hc4 : start + (cs - co) = start + cs - co := by omega
          rw [hc4]
        · exact ih _ (by omega)
    · simp only [crossWindows]
      rw [if_neg h]
      exact List.chain'_nil

lemma mem_crossWindows_bounds (cs co : Nat) (toks : List Token) (bps : List (Nat × Nat))
    (fuel start : Nat) (w : Window) (hw : w ∈ crossWindows cs co toks bps fuel start) :
    w.tokens.length ≤ cs ∧ (0 < cs → w.start < w.stop) ∧ w.stop ≤ toks.length := by
  obtain ⟨h1, h2, h3, _⟩ := mem_crossWindows cs co toks bps fuel start w hw
  refine ⟨?_, fun hcs => by omega, by omega⟩
  rw [h3, List.length_take, List.length_drop]
  omega

lemma emitChunks_token_count (idx : Nat) (ws : List Window) :
    ∀ c ∈ emitChunks idx ws, ∃ w ∈ ws, c.token_count = w.tokens.length := by
  induction ws generalizing idx with
  | nil => intro c hc; simp [emitChunks] at hc
  | cons w ws ih =>
    intro c hc
    simp only [emitChunks] at hc
    by_cases hk : pyStrip (decode w.tokens) ≠ ""
    · rw [if_pos hk] at hc
      rcases List.mem_cons.mp hc with rfl | hc'
      · exact ⟨w, List.mem_cons_self _ _, rfl⟩
      · obtain ⟨w', hw', hcnt⟩ := ih (idx + 1) c hc'
        exact ⟨w', List.mem_cons_of_mem _ hw', hcnt⟩
    · rw [if_neg hk] at hc
      obtain ⟨w', hw', hcnt⟩ := ih idx c hc
      exact ⟨w', List.mem_cons_of_mem _ hw', hcnt⟩

/-- C1 amended: for every page list whose concatenated token stream has
N ≥ 1 tokens and every configuration with `chunk_overlap < chunk_size`, the
streaming cross-page chunker terminates by reaching the end of the stream
(the trace is non-empty and its last window ends at N — the safety bound is
never what stops it); every emitted chunk has `token_count ≤ chunk_size`;
the start offset of window i+1 equals the end offset of window i minus
`chunk_overlap`; the final window is the only one whose end offset equals N;
the iterated windows cover `[0, N)` with no gaps; and window i's tail
overlap equals window i+1's head overlap token-for-token.  (The claim's
"emitted windows cover [0, N)" is weakened to the iterated windows: a window
whose decoded text is whitespace-only is dropped from emission, see the
counterexample.) -/
theorem streaming_chunker_window_structure (cs co : Nat) (pages : List PageData)
    (hco : co < cs) (hN : 1 ≤ (allTokens pages).length) :
    crossWindowTrace cs co pages ≠ [] ∧
    (∀ c ∈ TextChunker.chunk_documents_with_cross_page_overlap_streaming ⟨cs, co⟩ pages,
        c.token_count ≤ cs) ∧
    List.Chain' (fun a b => b.start = a.stop - co) (crossWindowTrace cs co pages) ∧
    ((crossWindowTrace cs co pages).getLast?.map Window.stop
        = some (allTokens pages).length) ∧
    (∀ w ∈ (crossWindowTrace cs co pages).dropLast, w.stop < (allTokens pages).length) ∧
    (∀ k, k < (allTokens pages).length →
        ∃ w ∈ crossWindowTrace cs co pages, w.start ≤ k ∧ k < w.stop) ∧
    List.Chain' (fun a b => b.tokens.take co = a.tokens.drop (a.tokens.length - co))
      (crossWindowTrace cs co pages) := by
  have hstart : (0 : Nat) < (allTokens pages).length := hN
  have hfuel : (allTokens pages).length ≤ 0 + 2 * (allTokens pages).length := by omega
  obtain ⟨ws, lst, heq, hlst, hwlt⟩ :=
    crossWindows_split cs co (allTokens pages) (boundaryPages 0 pages) hco
      (2 * (allTokens pages).length) 0 hstart hfuel
  have htr : crossWindowTrace cs co pages = ws ++ [lst] := heq
  refine ⟨?_, ?_, ?_, ?_, ?_, ?_, ?_⟩
  · rw [htr]; simp
  · intro c hc
    obtain ⟨w, hw, hcnt⟩ := emitChunks_token_count 0 (crossWindowTrace cs co pages) c hc
    have := mem_crossWindows_bounds cs co (allTokens pages) (boundaryPages 0 pages)
      (2 * (allTokens pages).length) 0 w hw
    omega
  · exact crossWindows_chain_start cs co (allTokens pages) (boundaryPages 0 pages) hco
      (2 * (allTokens pages).length) 0 hfuel
  · rw [htr, List.getLast?_concat]
    simp [hlst]
  · rw [htr, List.dropLast_concat]
    exact hwlt
  · intro k hk
    exact crossWindows_cover cs co (allTokens pages) (boundaryPages 0 pages) hco
      (2 * (allTokens pages).length) 0 hstart hfuel k (Nat.zero_le k) hk
  · exact crossWindows_chain_overlap cs co (allTokens pages) (boundaryPages 0 pages) hco
      (2 * (allTokens pages).length) 0 hfuel

theorem streaming_chunker_window_structure_witness :
    crossWindowTrace 10 2 [⟨["a1", "a2", "a3", "a4", "a5", "a6"], 1, 2⟩,
        ⟨["b1", "b2", "b3", "b4", "b5", "b6", "b7", "b8", "b9"], 2, 2⟩] ≠ [] ∧
    (∀ c ∈ TextChunker.chunk_documents_with_cross_page_overlap_streaming ⟨10, 2⟩
        [⟨["a1", "a2", "a3", "a4", "a5", "a6"], 1, 2⟩,
          ⟨["b1", "b2", "b3", "b4", "b5", "b6", "b7", "b8", "b9"], 2, 2⟩],
        c.token_count ≤ 10) ∧
    List.Chain' (fun a b => b.start = a.stop - 2)
      (crossWindowTrace 10 2 [⟨["a1", "a2", "a3", "a4", "a5", "a6"], 1, 2⟩,
        ⟨["b1", "b2", "b3", "b4", "b5", "b6", "b7", "b8", "b9"], 2, 2⟩]) ∧
    ((crossWindowTrace 10 2 [⟨["a1", "a2", "a3", "a4", "a5", "a6"], 1, 2⟩,
        ⟨["b1", "b2", "b3", "b4", "b5", "b6", "b7", "b8", "b9"], 2, 2⟩]).getLast?.map
          Window.stop
        = some (allTokens [⟨["a1", "a2", "a3", "a4", "a5", "a6"], 1, 2⟩,
            ⟨["b1", "b2", "b3", "b4", "b5", "b6", "b7", "b8", "b9"], 2, 2⟩]).length) ∧
    (∀ w ∈ (crossWindowTrace 10 2 [⟨["a1", "a2", "a3", "a4", "a5", "a6"], 1, 2⟩,
        ⟨["b1", "b2", "b3", "b4", "b5", "b6", "b7", "b8", "b9"], 2, 2⟩]).dropLast,
        w.stop < (allTokens [⟨["a1", "a2", "a3", "a4", "a5", "a6"], 1, 2⟩,
            ⟨["b1", "b2", "b3", "b4", "b5", "b6", "b7", "b8", "b9"], 2, 2⟩]).length) ∧
    (∀ k, k < (allTokens [⟨["a1", "a2", "a3", "a4", "a5", "a6"], 1, 2⟩,
        ⟨["b1", "b2", "b3", "b4", "b5", "b6", "b7", "b8", "b9"], 2, 2⟩]).length →
        ∃ w ∈ crossWindowTrace 10 2 [⟨["a1", "a2", "a3", "a4", "a5", "a6"], 1, 2⟩,
            ⟨["b1", "b2", "b3", "b4", "b5", "b6", "b7", "b8", "b9"], 2, 2⟩],
          w.start ≤ k ∧ k < w.stop) ∧
    List.Chain' (fun a b => b.tokens.take 2 = a.tokens.drop (a.tokens.length - 2))
      (crossWindowTrace 10 2 [⟨["a1", "a2", "a3", "a4", "a5", "a6"], 1, 2⟩,
        ⟨["b1", "b2", "b3", "b4", "b5", "b6", "b7", "b8", "b9"], 2, 2⟩]) :=
  streaming_chunker_window_structure 10 2
    [⟨["a1", "a2", "a3", "a4", "a5", "a6"], 1, 2⟩,
      ⟨["b1", "b2", "b3", "b4", "b5", "b6", "b7", "b8", "b9"], 2, 2⟩]
    (by decide) (by decide)

/-- The pages' token ranges in the concatenated stream: for each page, in
extractor order, the tuple (start offset, end offset, page_number); page i's
tokens occupy `[boundary_i, next_boundary_i)`. -/
lemma pagesInChunk_boundaryPages (start stop : Nat) :
    ∀ (pages : List PageData) (acc N : Nat),
      N = acc + ((pages.map (fun p => p.text.length)).sum) →
      pagesInChunk N start stop (boundaryPages acc pages)
        = ((pageIntervals acc pages).filter
            (fun t => decide (start < t.2.1 ∧ t.1 < stop))).map (fun t => t.2.2) := by
  intro pages
  induction pages with
  | nil => intro acc N h; simp [boundaryPages, pagesInChunk, pageIntervals]
  | cons p ps ih =>
    intro acc N h
    simp only [List.map_cons, List.sum_cons] at h
    have h' : N = (acc + p.text.length) + ((ps.map (fun p => p.text.length)).sum) := by omega
    simp only [boundaryPages, pagesInChunk, pageIntervals]
    have hnb : nextBoundary N (boundaryPages (acc + p.text.length) ps)
        = acc + p.text.length := by
      cases ps with
      | nil =>
        simp only [boundaryPages, nextBoundary]
        simp at h'
        omega
      | cons q qs => simp [boundaryPages, nextBoundary]
    rw [hnb]
    by_cases hc : start < acc + p.text.length ∧ acc < stop
    · rw [if_pos hc, List.filter_cons_of_pos (by simpa using hc), List.map_cons]
      rw [ih (acc + p.text.length) N h']
    · rw [if_neg hc, List.filter_cons_of_neg (by simpa using hc)]
      exact ih (acc + p.text.length) N h'

lemma mem_pageIntervals : ∀ (pages : List PageData) (acc : Nat) (t : Nat × Nat × Nat),
    t ∈ pageIntervals acc pages →
      ∃ p ∈ pages, t.2.1 = t.1 + p.text.length ∧ t.2.2 = p.page_number := by
  intro pages
  induction pages with
  | nil => intro acc t ht; simp [pageIntervals] at ht
  | cons p ps ih =>
    intro acc t ht
    simp only [pageIntervals] at ht
    rcases List.mem_cons.mp ht with rfl | ht'
    · exact ⟨p, List.mem_cons_self _ _, rfl, rfl⟩
    · obtain ⟨q, hq, h1, h2⟩ := ih (acc + p.text.length) t ht'
      exact ⟨q, List.mem_cons_of_mem _ hq, h1, h2⟩

lemma pageIntervals_map_pn : ∀ (pages : List PageData) (acc : Nat),
    (pageIntervals acc pages).map (fun t => t.2.2) = pages.map PageData.page_number := by
  intro pages
  induction pages with
  | nil => intro acc; simp [pageIntervals]
  | cons p ps ih => intro acc; simp only [pageIntervals, List.map_cons, ih]

/-- C3: for every window iterated by the cross-page chunker (hence for every
emitted chunk, whose `page_numbers` is its window's page list), given that
the extractor supplies only pages with non-empty text in strictly ascending
`page_number` order, the chunk's `page_numbers` contains a page's number iff
that page's token range `[boundary, next_boundary)` shares at least one
token offset with the chunk's window `[start, end)` — so it contains every
intersecting page and no other — and it is sorted in strictly ascending
order. -/
theorem chunk_page_numbers_exact (cs co : Nat) (pages : List PageData)
    (hcs : 0 < cs)
    (hne : ∀ p ∈ pages, p.text ≠ [])
    (hasc : (pages.map PageData.page_number).Pairwise (· < ·)) :
    ∀ w ∈ crossWindowTrace cs co pages,
      (∀ pn, pn ∈ w.pages ↔
        ∃ t ∈ pageIntervals 0 pages, t.2.2 = pn ∧
          ∃ k, t.1 ≤ k ∧ k < t.2.1 ∧ w.start ≤ k ∧ k < w.stop) ∧
      w.pages.Pairwise (· < ·) := by
  intro w hw
  simp only [crossWindowTrace] at hw
  obtain ⟨hlt, hstop, htoks, hpages⟩ :=
    mem_crossWindows cs co (allTokens pages) (boundaryPages 0 pages)
      (2 * (allTokens pages).length) 0 w hw
  have hwlt : w.start < w.stop :=
    (mem_crossWindows_bounds cs co (allTokens pages) (boundaryPages 0 pages)
      (2 * (allTokens pages).length) 0 w hw).2.1 hcs
  have hN : (allTokens pages).length = 0 + ((pages.map (fun p => p.text.length)).sum) := by
    simp only [allTokens, List.length_flatten, List.map_map, Nat.zero_add]
    rfl
  rw [hpages, pagesInChunk_boundaryPages w.start w.stop pages 0 (allTokens pages).length hN]
  constructor
  · intro pn
    constructor
    · intro hpn
      rw [List.mem_map] at hpn
      obtain ⟨t, ht, rfl⟩ := hpn
      rw [List.mem_filter] at ht
      obtain ⟨htmem, hcond⟩ := ht
      obtain ⟨p, hp, hlen, _⟩ := mem_pageIntervals pages 0 t htmem
      have hplen : 0 < p.text.length := List.length_pos.mpr (hne p hp)
      have hcond' : w.start < t.2.1 ∧ t.1 < w.stop := by simpa using hcond
      exact ⟨t, htmem, rfl, max w.start t.1, le_max_right _ _, by omega, le_max_left _ _,
        by omega⟩
    · rintro ⟨t, htmem, rfl, k, hk1, hk2, hk3, hk4⟩
      rw [List.mem_map]
      refine ⟨t, ?_, rfl⟩
      rw [List.mem_filter]
      refine ⟨htmem, ?_⟩
      simp only [decide_eq_true_eq]
      omega
  · have hsub :
        (((pageIntervals 0 pages).filter
            (fun t => decide (w.start < t.2.1 ∧ t.1 < w.stop))).map (fun t => t.2.2)).Sublist
          ((pageIntervals 0 pages).map (fun t => t.2.2)) :=
      List.Sublist.map _ (List.filter_sublist _)
    rw [pageIntervals_map_pn] at hsub
    exact List.Pairwise.sublist hsub hasc

theorem chunk_page_numbers_exact_witness :
    (0 : Nat) < 10 ∧
    (∀ p ∈ [(⟨["a1", "a2", "a3", "a4", "a5", "a6"], 1, 2⟩ : PageData),
        ⟨["b1", "b2", "b3", "b4", "b5", "b6", "b7", "b8", "b9"], 2, 2⟩], p.text ≠ []) ∧
    (([(⟨["a1", "a2", "a3", "a4", "a5", "a6"], 1, 2⟩ : PageData),
        ⟨["b1", "b2", "b3", "b4", "b5", "b6", "b7", "b8", "b9"], 2, 2⟩].map
          PageData.page_number).Pairwise (· < ·)) ∧
    (∀ w ∈ crossWindowTrace 10 2 [⟨["a1", "a2", "a3", "a4", "a5", "a6"], 1, 2⟩,
        ⟨["b1", "b2", "b3", "b4", "b5", "b6", "b7", "b8", "b9"], 2, 2⟩],
      (∀ pn, pn ∈ w.pages ↔
        ∃ t ∈ pageIntervals 0 [(⟨["a1", "a2", "a3", "a4", "a5", "a6"], 1, 2⟩ : PageData),
            ⟨["b1", "b2", "b3", "b4", "b5", "b6", "b7", "b8", "b9"], 2, 2⟩], t.2.2 = pn ∧
          ∃ k, t.1 ≤ k ∧ k < t.2.1 ∧ w.start ≤ k ∧ k < w.stop) ∧
      w.pages.Pairwise (· < ·)) :=
  ⟨by decide, by decide, by decide,
    chunk_page_numbers_exact 10 2
      [⟨["a1", "a2", "a3", "a4", "a5", "a6"], 1, 2⟩,
        ⟨["b1", "b2", "b3", "b4", "b5", "b6", "b7", "b8", "b9"], 2, 2⟩]
      (by decide) (by decide) (by decide)⟩

/-- Python `str.lower()` (modeled character-wise with `Char.toLower`). -/
lemma lookup_dictInsert {α : Type} (k : String) (v : α) :
    ∀ d : List (String × α), (dictInsert k v d).lookup k = some v := by
  intro d
  induction d with
  | nil => simp [dictInsert, List.lookup]
  | cons p rest ih =>
    obtain ⟨k', v'⟩ := p
    simp only [dictInsert]
    by_cases h : k' = k
    · rw [if_pos h]; simp [List.lookup]
    · rw [if_neg h]
      simp only [List.lookup]
      have : (k == k') = false := by
        simp [beq_iff_eq]
        exact fun hk => h hk.symm
      rw [this]
      exact ih

/-- The collaborators consumed by the two resolvers, as opaque call
contracts (hasura_client lookups, embeddings + milvus composed into
`searchEmbeddings`, LLM completion, uuid generation).
`searchFaqPartialQ` models `hasura_client.search_faq_partial`. -/
theorem resolver_graph_beats_faq (env : ResolverEnv) (cache : RedisCache)
    (q uid sid : String) (cid : Option String) (sn : GNode)
    (h1 : env.getNodeByText q = some sn)
    (h2 : env.getTargetNodes sn.id ≠ [])
    (h3 : env.searchFaqPartialQ q ≠ []) :
    (wsProcessChatMessage env cache q uid sid cid).resp.source = "knowledge_graph" ∧
    (restChat env cache q uid sid).resp.source = "knowledge_graph" ∧
    (wsProcessChatMessage env cache q uid sid cid).resp.source ≠ "faq" ∧
    (restChat env cache q uid sid).resp.source ≠ "faq" := by
  have hws : (wsProcessChatMessage env cache q uid sid cid).resp.source
      = "knowledge_graph" := by
    simp only [wsProcessChatMessage, h1]
    rw [if_pos h2]
  have hrest : (restChat env cache q uid sid).resp.source = "knowledge_graph" := by
    simp only [restChat, h1]
    rw [if_pos h2]
  refine ⟨hws, hrest, ?_, ?_⟩
  · rw [hws]; decide
  · rw [hrest]; decide

/-- Concrete collaborator environment for the C5 witness: the question "Q"
matches both a graph node with two outbound edges and an FAQ entry. -/
theorem resolver_graph_beats_faq_witness :
    (wsProcessChatMessage envC5 ⟨[]⟩ "Q" "u" "s" (some "c")).resp.source
        = "knowledge_graph" ∧
    (restChat envC5 ⟨[]⟩ "Q" "u" "s").resp.source = "knowledge_graph" ∧
    (wsProcessChatMessage envC5 ⟨[]⟩ "Q" "u" "s" (some "c")).resp.source ≠ "faq" ∧
    (restChat envC5 ⟨[]⟩ "Q" "u" "s").resp.source ≠ "faq" :=
  resolver_graph_beats_faq envC5 ⟨[]⟩ "Q" "u" "s" (some "c") ⟨1, "Q"⟩
    (by decide) (by decide) (by decide)

/-- Concrete collaborator environment for C7: every tier misses and the
vector search returns zero chunks. -/
theorem rag_zero_chunks_still_dispatches :
    envC7.searchEmbeddings "q" = [] ∧
    (wsProcessChatMessage envC7 ⟨[]⟩ "q" "u" "s" (some "c1")).dispatched
        = [⟨"q", [], "s", "u", "m1", some "c1"⟩] ∧
    (wsProcessChatMessage envC7 ⟨[]⟩ "q" "u" "s" (some "c1")).resp.status
        = some "processing" ∧
    (wsProcessChatMessage envC7 ⟨[]⟩ "q" "u" "s" (some "c1")).resp.success = true := by
  refine ⟨rfl, ?_, rfl, rfl⟩
  decide

/-- C7 amended: when the RAG tier's vector search returns zero chunks, the
REST resolver returns a not-found result (success = false, chunks_found = 0)
with a user-facing message and performs no LLM call; the websocket resolver
instead dispatches exactly one worker task whose context list is empty and
returns a "processing" response — so a task can be handed to the dispatcher
with zero context chunks. -/
theorem rag_zero_chunks_behavior (env : ResolverEnv) (cache : RedisCache)
    (q uid sid : String) (cid : Option String) (tok : String)
    (h1 : env.getNodeByText q = none)
    (h2 : env.searchNodesByText q = [])
    (h3 : RedisCache.get cache q = none)
    (h4 : env.searchFaqExact q = none)
    (h5 : env.searchFaqPartialQ q = [])
    (h6 : env.searchEmbeddings q = [])
    (h7 : env.hfToken = some tok) :
    ((restChat env cache q uid sid).resp.success = false ∧
      (restChat env cache q uid sid).resp.message
        = some "No relevant information found in documents. Please try another question or upload documents." ∧
      (restChat env cache q uid sid).resp.chunks_found = some 0 ∧
      (restChat env cache q uid sid).llmCalls = []) ∧
    ((wsProcessChatMessage env cache q uid sid cid).resp.status = some "processing" ∧
      (wsProcessChatMessage env cache q uid sid cid).resp.success = true ∧
      (wsProcessChatMessage env cache q uid sid cid).dispatched
        = [⟨q, [], resolveSessionId env uid sid, uid, env.freshMessageId, cid⟩]) := by
  constructor
  · refine ⟨?_, ?_, ?_, ?_⟩ <;>
      simp [restChat, restStep2, restStep3, restStep4, h1, h2, h3, h4, h5, h6]
  · refine ⟨?_, ?_, ?_⟩ <;>
      simp [wsProcessChatMessage, wsStep2, wsStep3, wsStep4, h1, h2, h3, h5, h6, h7]

theorem rag_zero_chunks_behavior_witness :
    (((restChat envC7 ⟨[]⟩ "q" "u" "s").resp.success = false ∧
      (restChat envC7 ⟨[]⟩ "q" "u" "s").resp.message
        = some "No relevant information found in documents. Please try another question or upload documents." ∧
      (restChat envC7 ⟨[]⟩ "q" "u" "s").resp.chunks_found = some 0 ∧
      (restChat envC7 ⟨[]⟩ "q" "u" "s").llmCalls = []) ∧
    ((wsProcessChatMessage envC7 ⟨[]⟩ "q" "u" "s" (some "c1")).resp.status
        = some "processing" ∧
      (wsProcessChatMessage envC7 ⟨[]⟩ "q" "u" "s" (some "c1")).resp.success = true ∧
      (wsProcessChatMessage envC7 ⟨[]⟩ "q" "u" "s" (some "c1")).dispatched
        = [⟨"q", [], resolveSessionId envC7 "u" "s", "u", envC7.freshMessageId,
            some "c1"⟩])) :=
  rag_zero_chunks_behavior envC7 ⟨[]⟩ "q" "u" "s" (some "c1") "tok"
    rfl rfl rfl rfl rfl rfl rfl

/-- `hasura_client.get_node_by_text` (services/hasura_client.py, lines
190-227), in the `workflow_id = None` form used by both resolvers: the
Hasura query `nodes(where: {text: {_eq: $text}}, order_by: {created_at:
desc}, limit: 1)`.  `nodes` is the stored node table already sorted by
`created_at` descending; Hasura/Postgres `_eq` on a text column is exact,
case- and whitespace-sensitive string equality, applied to the raw question
string the caller passes in. -/
theorem exact_match_not_normalized :
    pyLower (pyStrip " what is x ") = pyLower (pyStrip "What is X") ∧
    pyLower (pyStrip "what is x") = pyLower (pyStrip "What is X") ∧
    get_node_by_text [⟨1, "What is X"⟩] " what is x " = none ∧
    get_node_by_text [⟨1, "What is X"⟩] "what is x" = none ∧
    get_node_by_text [⟨1, "What is X"⟩] "What is X" = some ⟨1, "What is X"⟩ := by
  decide

/-- C6 amended: the exact-match lookup compares the raw question string for
exact (case- and whitespace-sensitive) equality against stored node text and
returns the first (most recently created) node with exactly that text: it is
`List.find?` on exact equality — no normalization is applied, so a question
differing from every stored node's text (even only by case or surrounding
whitespace) is not found by tier 1. -/
theorem get_node_by_text_exact_only (nodes : List GNode) (q : String) :
    get_node_by_text nodes q = nodes.find? (fun n => n.text == q) ∧
    (∀ n, get_node_by_text nodes q = some n → n ∈ nodes ∧ n.text = q) ∧
    ((∀ n ∈ nodes, n.text ≠ q) → get_node_by_text nodes q = none) := by
  have hfind : get_node_by_text nodes q = nodes.find? (fun n => n.text == q) := by
    unfold get_node_by_text
    induction nodes with
    | nil => rfl
    | cons n rest ih =>
      rw [List.filter_cons, List.find?_cons]
      cases h : (n.text == q) with
      | true => simp
      | false => simpa using ih
  refine ⟨hfind, ?_, ?_⟩
  · intro n hn
    rw [hfind] at hn
    exact ⟨List.mem_of_find?_eq_some hn, by simpa using List.find?_some hn⟩
  · intro hall
    rw [hfind]
    rw [List.find?_eq_none]
    intro n hn
    simpa using hall n hn

theorem get_node_by_text_exact_only_witness :
    (get_node_by_text [⟨1, "What is X"⟩] "What is X"
        = [(⟨1, "What is X"⟩ : GNode)].find? (fun n => n.text == "What is X") ∧
      (∀ n, get_node_by_text [⟨1, "What is X"⟩] "What is X" = some n →
        n ∈ [(⟨1, "What is X"⟩ : GNode)] ∧ n.text = "What is X") ∧
      ((∀ n ∈ [(⟨1, "What is X"⟩ : GNode)], n.text ≠ "What is X") →
        get_node_by_text [⟨1, "What is X"⟩] "What is X" = none)) :=
  get_node_by_text_exact_only [⟨1, "What is X"⟩] "What is X"

/-- A Python value as it appears in a Celery positional-args list. -/
theorem rag_worker_never_publishes :
    (∀ t : TaskSubmission, (wsSubmittedArgs t).length = 6) ∧
    (∀ (t : TaskSubmission) (llm : String → List ChunkHit → String) (now : String),
      runGenerateLlmAnswerTask llm now (wsSubmittedArgs t)
        = Except.error "TypeError: wrong number of positional arguments") ∧
    (∀ (q : String) (chunks : List ChunkHit) (sid uid mid : String)
        (llm : String → List ChunkHit → String) (now : String),
      (generate_llm_answer_task q chunks sid uid mid llm now).lookup "client_id" = none ∧
      taskPostrunPublish mid (generate_llm_answer_task q chunks sid uid mid llm now)
        = none) := by
  refine ⟨fun t => rfl, fun t llm now => ?_, fun q chunks sid uid mid llm now => ⟨rfl, rfl⟩⟩
  cases h : t.client_id <;> simp [wsSubmittedArgs, runGenerateLlmAnswerTask, h]

lemma mem_keys_dictInsert {α : Type} (k : String) (v : α) :
    ∀ (d : List (String × α)) (a : String),
      a ∈ (dictInsert k v d).map Prod.fst → a = k ∨ a ∈ d.map Prod.fst := by
  intro d
  induction d with
  | nil => intro a ha; simp [dictInsert] at ha; exact Or.inl ha
  | cons p rest ih =>
    intro a ha
    obtain ⟨k', v'⟩ := p
    simp only [dictInsert] at ha
    by_cases h : k' = k
    · rw [if_pos h] at ha
      simp only [List.map_cons, List.mem_cons] at ha ⊢
      rcases ha with rfl | h2
      · exact Or.inl rfl
      · exact Or.inr (Or.inr h2)
    · rw [if_neg h] at ha
      simp only [List.map_cons, List.mem_cons] at ha ⊢
      rcases ha with rfl | h2
      · exact Or.inr (Or.inl rfl)
      · rcases ih a h2 with h3 | h3
        · exact Or.inl h3
        · exact Or.inr (Or.inr h3)

lemma nodup_keys_dictInsert {α : Type} (k : String) (v : α) :
    ∀ d : List (String × α),
      (d.map Prod.fst).Nodup → ((dictInsert k v d).map Prod.fst).Nodup := by
  intro d
  induction d with
  | nil => intro _; simp [dictInsert]
  | cons p rest ih =>
    intro hd
    obtain ⟨k', v'⟩ := p
    simp only [List.map_cons, List.nodup_cons] at hd
    obtain ⟨hk', hrest⟩ := hd
    simp only [dictInsert]
    by_cases h : k' = k
    · rw [if_pos h]
      simp only [List.map_cons, List.nodup_cons]
      subst h
      exact ⟨hk', hrest⟩
    · rw [if_neg h]
      simp only [List.map_cons, List.nodup_cons]
      refine ⟨?_, ih hrest⟩
      intro hmem
      rcases mem_keys_dictInsert k v rest k' hmem with h1 | h1
      · exact h h1
      · exact hk' h1

lemma lookup_filter_key {α : Type} (k : String) :
    ∀ d : List (String × α), (d.filter (fun p => p.1 != k)).lookup k = none := by
  intro d
  induction d with
  | nil => rfl
  | cons p rest ih =>
    obtain ⟨k', v'⟩ := p
    rw [List.filter_cons]
    by_cases h : k' = k
    · subst h
      simp only [bne_self_eq_false, if_false]
      exact ih
    · have hc : ((k', v').1 != k) = true := by simp [h]
      rw [if_pos hc]
      simp only [List.lookup]
      have hbeq : (k == k') = false := by
        simp only [beq_eq_false_iff_ne, ne_eq]
        exact fun hk => h hk.symm
      rw [hbeq]
      exact ih

/-- `ConnectionManager` (routes/websocket_chat.py, lines 23-59): the live
connection map (client_id → websocket, the socket modeled as an opaque
handle) and the pending-task registry (task_id → client_id).  Both are
Python dicts: keys are unique and assignment replaces in place. -/
theorem pending_task_registry_correct (m : ConnMgr)
    (task_id client_id message : String) (sock : Nat)
    (hnodup : (m.pending_tasks.map Prod.fst).Nodup)
    (hconn : m.active_connections.lookup client_id = some sock) :
    ((m.register_pending_task task_id client_id).pending_tasks.map Prod.fst).Nodup ∧
    ((m.disconnect client_id).pending_tasks.map Prod.fst).Nodup ∧
    (((m.send_to_task_client task_id message).1.pending_tasks.map Prod.fst).Nodup) ∧
    (((m.register_pending_task task_id client_id).send_to_task_client task_id message).2
        = some (client_id, some (sock, message))) ∧
    (((m.register_pending_task task_id client_id).send_to_task_client task_id
        message).1.pending_tasks.lookup task_id = none) ∧
    (∀ p ∈ (m.disconnect client_id).pending_tasks, p.2 ≠ client_id) ∧
    (m.pending_tasks.lookup task_id = none →
      m.send_to_task_client task_id message = (m, none)) := by
  refine ⟨?_, ?_, ?_, ?_, ?_, ?_, ?_⟩
  · exact nodup_keys_dictInsert task_id client_id m.pending_tasks hnodup
  · exact List.Nodup.sublist (List.Sublist.map _ (List.filter_sublist _)) hnodup
  · cases h : m.pending_tasks.lookup task_id with
    | some cid =>
      simp only [ConnMgr.send_to_task_client, h]
      exact List.Nodup.sublist (List.Sublist.map _ (List.filter_sublist _)) hnodup
    | none =>
      simp only [ConnMgr.send_to_task_client, h]
      exact hnodup
  · simp only [ConnMgr.register_pending_task, ConnMgr.send_to_task_client,
      lookup_dictInsert, ConnMgr.send_message, hconn]
    rfl
  · simp only [ConnMgr.register_pending_task, ConnMgr.send_to_task_client,
      lookup_dictInsert]
    exact lookup_filter_key task_id _
  · intro p hp
    simp only [ConnMgr.disconnect, List.mem_filter] at hp
    simpa using hp.2
  · intro h
    simp only [ConnMgr.send_to_task_client, h]

theorem pending_task_registry_correct_witness :
    (((⟨[("c1", 7)], [("t0", "c9")]⟩ : ConnMgr).register_pending_task "t1"
        "c1").pending_tasks.map Prod.fst).Nodup ∧
    (((⟨[("c1", 7)], [("t0", "c9")]⟩ : ConnMgr).disconnect
        "c1").pending_tasks.map Prod.fst).Nodup ∧
    ((((⟨[("c1", 7)], [("t0", "c9")]⟩ : ConnMgr).send_to_task_client "t1"
        "hello").1.pending_tasks.map Prod.fst).Nodup) ∧
    ((((⟨[("c1", 7)], [("t0", "c9")]⟩ : ConnMgr).register_pending_task "t1"
        "c1").send_to_task_client "t1" "hello").2
        = some ("c1", some (7, "hello"))) ∧
    ((((⟨[("c1", 7)], [("t0", "c9")]⟩ : ConnMgr).register_pending_task "t1"
        "c1").send_to_task_client "t1" "hello").1.pending_tasks.lookup "t1" = none) ∧
    (∀ p ∈ ((⟨[("c1", 7)], [("t0", "c9")]⟩ : ConnMgr).disconnect "c1").pending_tasks,
      p.2 ≠ "c1") ∧
    ((⟨[("c1", 7)], [("t0", "c9")]⟩ : ConnMgr).pending_tasks.lookup "t1" = none →
      (⟨[("c1", 7)], [("t0", "c9")]⟩ : ConnMgr).send_to_task_client "t1" "hello"
        = (⟨[("c1", 7)], [("t0", "c9")]⟩, none)) :=
  pending_task_registry_correct ⟨[("c1", 7)], [("t0", "c9")]⟩ "t1" "c1" "hello" 7
    (by decide) (by decide)

/-- C10: questions equal after trimming surrounding whitespace and
lowercasing produce the same cache key, so get, set and delete all address
the same cache slot, and a set under one phrasing is hit by a get under the
other. -/
theorem cache_key_normalization (q1 q2 : String)
    (h : pyLower (pyStrip q1) = pyLower (pyStrip q2)) :
    get_cache_key q1 = get_cache_key q2 ∧
    (∀ c : RedisCache, c.get q1 = c.get q2) ∧
    (∀ (c : RedisCache) (v : CachePayload) (ttl : Nat), c.set q1 v ttl = c.set q2 v ttl) ∧
    (∀ c : RedisCache, c.delete q1 = c.delete q2) ∧
    (∀ (c : RedisCache) (v : CachePayload) (ttl : Nat),
      (c.set q1 v ttl).get q2 = some v) := by
  have hk : get_cache_key q1 = get_cache_key q2 := by
    unfold get_cache_key
    rw [h]
  refine ⟨hk, fun c => ?_, fun c v ttl => ?_, fun c => ?_, fun c v ttl => ?_⟩
  · unfold RedisCache.get
    rw [hk]
  · unfold RedisCache.set
    rw [hk]
  · unfold RedisCache.delete
    rw [hk]
  · unfold RedisCache.get RedisCache.set
    rw [← hk]
    exact lookup_dictInsert _ _ _

theorem cache_key_normalization_witness :
    get_cache_key "What is X?" = get_cache_key " what is x? " ∧
    (∀ c : RedisCache, c.get "What is X?" = c.get " what is x? ") ∧
    (∀ (c : RedisCache) (v : CachePayload) (ttl : Nat),
      c.set "What is X?" v ttl = c.set " what is x? " v ttl) ∧
    (∀ c : RedisCache, c.delete "What is X?" = c.delete " what is x? ") ∧
    (∀ (c : RedisCache) (v : CachePayload) (ttl : Nat),
      (c.set "What is X?" v ttl).get " what is x? " = some v) :=
  cache_key_normalization "What is X?" " what is x? " (by decide)
